import Mathlib

/-!
Verification development for the component/event substrate of the
video.js repository (src/js/component.js, src/js/button.js, src/js/video.js).

Each section embeds the relevant JavaScript source as executable Lean
definitions (state passing for mutation, Except for thrown exceptions,
explicit macrotask lists for asynchrony) and proves or refutes the frozen
specification claims against them.
-/

set_option maxRecDepth 4000

/-! ## Tap gesture recognizer (Component.emitTapEvents)

Embeds the closure state of emitTapEvents: touchStart (ms timestamp),
firstTouch (copy of touches[0]), couldBeTap (undefined until first
touchstart).  A touch event carries its touches list, modelled as a first
touch plus the rest so that touches.length === 1 is rest = [].

The source compares Math.sqrt(xdiff^2 + ydiff^2) > 10; over integers this
is equivalent to xdiff^2 + ydiff^2 > 100 (both sides nonnegative), which is
how the displacement test is embedded.  event.preventDefault() and
this.trigger('tap') are recorded as outputs. -/

namespace Tap

structure Touch where
  pageX : Int
  pageY : Int
deriving DecidableEq, Repr

/-- Touch events as seen by the handlers registered in emitTapEvents.
touchend carries only the timestamp because the handler reads no touches. -/
inductive TEvent where
  | touchstart (t0 : Touch) (rest : List Touch) (time : Nat)
  | touchmove (t0 : Touch) (rest : List Touch) (time : Nat)
  | touchleave
  | touchcancel
  | touchend (time : Nat)
deriving DecidableEq, Repr

/-- Closure state of emitTapEvents: touchStart = 0, firstTouch = null,
couldBeTap undefined, initially. -/
structure TapState where
  touchStart : Nat
  firstTouch : Option Touch
  couldBeTap : Option Bool
deriving DecidableEq, Repr

def initState : TapState := ⟨0, none, none⟩

inductive TapOut where
  | preventedDefault
  | tap
deriving DecidableEq, Repr

def tapMovementThreshold : Int := 10

def touchTimeThreshold : Nat := 200

/-- Squared Euclidean displacement between first touch and current touch. -/
def dist2 (a b : Touch) : Int :=
  (b.pageX - a.pageX) * (b.pageX - a.pageX) + (b.pageY - a.pageY) * (b.pageY - a.pageY)

/-- One touch event through the handlers of emitTapEvents. -/
def step (s : TapState) (e : TEvent) : TapState × List TapOut :=
  match e with
  | .touchstart t0 rest time =>
      -- if (event.touches.length === 1)
      match rest with
      | [] => ({ touchStart := time, firstTouch := some t0, couldBeTap := some true }, [])
      | _ :: _ => (s, [])
  | .touchmove t0 rest _ =>
      -- if (event.touches.length > 1) couldBeTap = false
      match rest with
      | _ :: _ => ({ s with couldBeTap := some false }, [])
      | [] =>
        match s.firstTouch with
        | some f =>
            -- if (touchDistance > tapMovementThreshold) couldBeTap = false
            if tapMovementThreshold * tapMovementThreshold < dist2 f t0 then
              ({ s with couldBeTap := some false }, [])
            else (s, [])
        | none => (s, [])
  | .touchleave => ({ s with couldBeTap := some false }, [])
  | .touchcancel => ({ s with couldBeTap := some false }, [])
  | .touchend time =>
      -- firstTouch = null; if (couldBeTap === true) ...
      let s' := { s with firstTouch := none }
      if s.couldBeTap = some true then
        if time - s.touchStart < touchTimeThreshold then
          (s', [.preventedDefault, .tap])
        else (s', [])
      else (s', [])

/-- Run the recognizer over a sequence of touch events, collecting outputs. -/
def run (s : TapState) : List TEvent → TapState × List TapOut
  | [] => (s, [])
  | e :: es =>
      let p := step s e
      let q := run p.1 es
      (q.1, p.2 ++ q.2)

/-- A single-touch gesture: one single-point touchstart, a list of touchmoves
(each carrying its touches and time), one touchend.  No touchleave/touchcancel. -/
def touchSeq (p0 : Touch) (t0 : Nat) (moves : List (Touch × List Touch × Nat))
    (tEnd : Nat) : List TEvent :=
  .touchstart p0 [] t0 ::
    (moves.map (fun m => TEvent.touchmove m.1 m.2.1 m.2.2) ++ [.touchend tEnd])

/-- A touchmove keeps the tap candidate alive iff it reports a single touch
point whose squared displacement from the start is at most 100 (= 10²). -/
def moveOk (p0 : Touch) (m : Touch × List Touch × Nat) : Bool :=
  match m.2.1 with
  | [] => decide (dist2 p0 m.1 ≤ 100)
  | _ :: _ => false

theorem run_append (s : TapState) (xs ys : List TEvent) :
    run s (xs ++ ys) =
      ((run (run s xs).1 ys).1, (run s xs).2 ++ (run (run s xs).1 ys).2) := by
  induction xs generalizing s with
  | nil => simp [run]
  | cons e es ih => simp [run, ih, List.append_assoc]

theorem run_moves (p0 : Touch) (t0 : Nat) (b : Bool)
    (moves : List (Touch × List Touch × Nat)) :
    run ⟨t0, some p0, some b⟩
        (moves.map (fun m => TEvent.touchmove m.1 m.2.1 m.2.2)) =
      (⟨t0, some p0, some (b && moves.all (moveOk p0))⟩, []) := by
  induction moves generalizing b with
  | nil => simp [run]
  | cons m ms ih =>
      obtain ⟨mt, mrest, mtime⟩ := m
      match mrest with
      | [] =>
          by_cases h : tapMovementThreshold * tapMovementThreshold < dist2 p0 mt
          · have hd : ¬ (dist2 p0 mt ≤ 100) := by
              simp [tapMovementThreshold] at h; omega
            simp only [List.map_cons, run, step, if_pos h, ih]
            simp [moveOk, hd]
          · have hd : dist2 p0 mt ≤ 100 := by
              simp [tapMovementThreshold] at h; omega
            simp only [List.map_cons, run, step, if_neg h, ih]
            simp [moveOk, hd]
      | r :: rs =>
          simp [run, step, ih, moveOk, List.all_cons]

/-- Claim C5 (amended): for every single-touch gesture (single-point
touchstart, touchmoves, touchend, no touchleave/touchcancel), the recognizer
emits preventDefault plus exactly one tap iff every touchmove reported a
single touch point within squared displacement 100 (i.e. 10 px) of the start
and the elapsed time at touchend is under 200 ms; otherwise (duration ≥ 200
ms, a touchmove with a second concurrent touch point, or displacement beyond
the threshold) it emits nothing.  Cancellation by a second touch point
happens only through touchmove events — see the counterexample theorem for a
second touch point that arrives in a touchstart event. -/
theorem tap_recognizer_canonical (p0 : Touch) (t0 : Nat)
    (moves : List (Touch × List Touch × Nat)) (tEnd : Nat) :
    (run initState (touchSeq p0 t0 moves tEnd)).2 =
      if moves.all (moveOk p0) && decide (tEnd - t0 < 200) then
        [TapOut.preventedDefault, TapOut.tap]
      else [] := by
  simp only [touchSeq, run, step, initState]
  rw [run_append, run_moves]
  cases h : moves.all (moveOk p0) <;>
    by_cases ht : tEnd - t0 < 200 <;>
      simp [run, step, touchTimeThreshold, ht, h]

/-- Claim C5 counterexample: a gesture in which a second concurrent touch
point appears (in a touchstart event, with no touchmove) and that ends within
200 ms still emits a tap: the touchstart handler ignores multi-touch events
instead of cancelling the candidate, so the claim that a second touch point
always suppresses the tap is false on the code. -/
theorem tap_second_touchstart_still_taps :
    (run initState
      [.touchstart ⟨0, 0⟩ [] 0,
       .touchstart ⟨0, 0⟩ [⟨5, 5⟩] 10,
       .touchend 50]).2 = [TapOut.preventedDefault, TapOut.tap] := by
  decide

end Tap

/-! ## Child management (Component addChild / removeChild / initChildren /
getChildById / getChild)

A parent component's mutable child bookkeeping: children_ (array, null after
dispose), childIndex_ and childNameIndex_ (plain JS objects, null after
dispose), and the list of child elements appended to contentEl().  Child
instances live in a heap keyed by an object-identity token; a ChildObj
records, for each duck-typed accessor the source guards on, whether the
method exists and what it returns.  Thrown TypeErrors are modelled with
Except.error (state mutated before a throw is not retained, only the fact of
the throw). -/

namespace CM

/-- A JS object used as a string-keyed map: assignment prepends a shadowing
binding, lookup takes the first. -/
def alookup {α : Type} : List (String × α) → String → Option α
  | [], _ => none
  | kv :: rest, k => if kv.1 = k then some kv.2 else alookup rest k

def aset {α : Type} (m : List (String × α)) (k : String) (v : α) :
    List (String × α) :=
  (k, v) :: m

theorem alookup_aset_self {α : Type} (m : List (String × α)) (k : String) (v : α) :
    alookup (aset m k v) k = some v := by
  simp [alookup, aset]

theorem alookup_aset_ne {α : Type} (m : List (String × α)) (k j : String) (v : α)
    (h : k ≠ j) : alookup (aset m k v) j = alookup m j := by
  simp [alookup, aset, h]

/-- A child instance as removeChild/addChild see it: which duck-typed
accessors exist (addChild guards on them, removeChild does not) and what
they return.  namev/elv are the return values, possibly null. -/
structure ChildObj where
  hasId : Bool
  idv : String
  hasName : Bool
  namev : Option String
  hasEl : Bool
  elv : Option Nat
deriving DecidableEq, Repr

/-- The parent-side state: object heap plus the constructor-initialized
containers.  children_/childIndex_/childNameIndex_ are initialized together
in the constructor and nulled together in dispose, so they are all present
or all absent in reachable states. -/
structure PState where
  heap : List (Nat × ChildObj)
  nextTok : Nat
  guidCounter : Nat
  children_ : Option (List Nat)
  childIndex_ : Option (List (String × Option Nat))
  childNameIndex_ : Option (List (String × Option Nat))
  contentChildren : List Nat
deriving DecidableEq, Repr

/-- A freshly constructed parent: `this.children_ = []; this.childIndex_ = \x7b\x7d;
this.childNameIndex_ = \x7b\x7d`. -/
def newParent : PState :=
  { heap := [], nextTok := 0, guidCounter := 0,
    children_ := some [], childIndex_ := some [], childNameIndex_ := some [],
    contentChildren := [] }

def getObj (p : PState) (tok : Nat) : Option ChildObj :=
  (p.heap.find? (fun kv => kv.1 == tok)).map (·.2)

/-- getChildById: `return this.childIndex_[id]` — a TypeError if the index
was nulled by dispose; otherwise undefined (key never written) and null (key
nulled by removeChild) are both an absent result. -/
def getChildById (p : PState) (id : String) : Except String (Option Nat) :=
  match p.childIndex_ with
  | none => .error "TypeError: childIndex_ is null"
  | some m => .ok ((alookup m id).bind (fun v => v))

/-- getChild: `return this.childNameIndex_[name]`. -/
def getChild (p : PState) (name : String) : Except String (Option Nat) :=
  match p.childNameIndex_ with
  | none => .error "TypeError: childNameIndex_ is null"
  | some m => .ok ((alookup m name).bind (fun v => v))

/-- The shared tail of addChild, from `this.children_.push(component)` on:
push, guarded id indexing, `componentName = componentName || (component.name
&& component.name())`, guarded name indexing (skipped for a falsy name), and
element insertion when `typeof component.el === 'function' && component.el()`.
componentName0 is the name the string branch carries (none in the instance
branch). -/
def addChildCommon (p : PState) (tok : Nat) (c : ChildObj)
    (componentName0 : Option String) : Except String (PState × Nat) :=
  match p.children_, p.childIndex_, p.childNameIndex_ with
  | some cs, some idxm, some nmm =>
    let idxm' := if c.hasId then aset idxm c.idv (some tok) else idxm
    let nameFromMethod : Option String := if c.hasName then c.namev else none
    let componentName : Option String :=
      match componentName0 with
      | some s => if s ≠ "" then some s else nameFromMethod
      | none => nameFromMethod
    let nmm' :=
      match componentName with
      | some s => if s ≠ "" then aset nmm s (some tok) else nmm
      | none => nmm
    let content' :=
      if c.hasEl then
        match c.elv with
        | some e => p.contentChildren ++ [e]
        | none => p.contentChildren
      else p.contentChildren
    .ok ({ p with children_ := some (cs ++ [tok]), childIndex_ := some idxm',
                  childNameIndex_ := some nmm', contentChildren := content' }, tok)
  | _, _, _ => .error "TypeError: children_ is null"

/-- Options value passed to addChild / stored in a children configuration:
undef stands for an omitted argument (defaulted to an empty object) or an
absent key; obj carries the only option field the modelled observations
depend on (id). -/
inductive OptsV where
  | undef
  | fls
  | tru
  | obj (id : Option String)
deriving DecidableEq, Repr

/-- addChild, string branch: `if (!options) options = \x7b\x7d` coerces false,
`options === true` is coerced with a deprecation warning, options.name is
set to the supplied name, and the Component constructor runs: id_ from a
truthy options.id else a generated player-scoped id (player id modelled as
the constant "player"), name_ = options.name || null, and a fresh element. -/
def addChildName (p : PState) (nm : String) (opts : OptsV) :
    Except String (PState × Nat) :=
  let optId : Option String :=
    match opts with
    | .obj id => id
    | _ => none
  let genId := "player_component_" ++ toString p.guidCounter
  let cid :=
    match optId with
    | some s => if s = "" then genId else s
    | none => genId
  let c : ChildObj :=
    { hasId := true, idv := cid,
      hasName := true, namev := if nm = "" then none else some nm,
      hasEl := true, elv := some p.nextTok }
  let tok := p.nextTok
  let p' := { p with heap := (tok, c) :: p.heap, nextTok := p.nextTok + 1,
                     guidCounter := p.guidCounter + 1 }
  addChildCommon p' tok c (some nm)

/-- addChild, instance branch: `component = child`, then the shared tail. -/
def addChildInstance (p : PState) (tok : Nat) : Except String (PState × Nat) :=
  match getObj p tok with
  | none => .error "model: unknown object token"
  | some c => addChildCommon p tok c none

/-- The removeChild search loop: scan children_ from the end for an identity
match and splice out the first one found. -/
def spliceLast (cs : List Nat) (tok : Nat) : Option (List Nat) :=
  if cs.contains tok then some ((cs.reverse.erase tok).reverse) else none

/-- removeChild on a component reference: the `!component || !this.children_`
guard, the search loop, then the unguarded `this.childIndex_[component.id()] =
null`, `this.childNameIndex_[component.name()] = null` (a null name keys the
string "null") and `component.el()` — each a TypeError when the accessor is
missing. -/
def removeChildTok (p0 : PState) (tok : Nat) : Except String PState :=
  match p0.children_ with
  | none => .ok p0
  | some cs =>
    match spliceLast cs tok with
    | none => .ok p0
    | some cs' =>
      match getObj p0 tok with
      | none => .error "model: unknown object token"
      | some c =>
        if c.hasId then
          match p0.childIndex_ with
          | none => .error "TypeError: childIndex_ is null"
          | some idxm =>
            let idxm' := aset idxm c.idv none
            if c.hasName then
              match p0.childNameIndex_ with
              | none => .error "TypeError: childNameIndex_ is null"
              | some nmm =>
                let key := match c.namev with | some s => s | none => "null"
                let nmm' := aset nmm key none
                if c.hasEl then
                  let content' :=
                    match c.elv with
                    | some e => if p0.contentChildren.contains e then
                          p0.contentChildren.erase e
                        else p0.contentChildren
                    | none => p0.contentChildren
                  .ok { p0 with children_ := some cs', childIndex_ := some idxm',
                                childNameIndex_ := some nmm',
                                contentChildren := content' }
                else .error "TypeError: component.el is not a function"
            else .error "TypeError: component.name is not a function"
        else .error "TypeError: component.id is not a function"

/-- removeChild on a string: `component = this.getChild(component)` first. -/
def removeChildName (p : PState) (nm : String) : Except String PState :=
  match getChild p nm with
  | .error e => .error e
  | .ok none => .ok p
  | .ok (some tok) => removeChildTok p tok

/-- The handleAdd closure of initChildren: a parent-top-level option for the
name shadows the nested options when it is not undefined; `if (opts ===
false) return` skips the child; otherwise playerOptions is propagated (no
observable effect here) and addChild(name, opts) runs. -/
def handleAdd (p : PState) (parentOpts : List (String × OptsV)) (nm : String)
    (opts0 : OptsV) : Except String PState :=
  let opts :=
    match alookup parentOpts nm with
    | some v => if v = OptsV.undef then opts0 else v
    | none => opts0
  if opts = OptsV.fls then .ok p
  else (addChildName p nm opts).map (·.1)

/-- The container-clearing step of Component.dispose: `this.children_ = null;
this.childIndex_ = null; this.childNameIndex_ = null` (the full dispose
sequence is modelled in the event world below). -/
def disposeContainers (p : PState) : PState :=
  { p with children_ := none, childIndex_ := none, childNameIndex_ := none }

/-- Claim C9 (amended): on a component that has not been disposed (its child
indexes are still present), getChildById and getChild never throw for any
key, and on an unknown key they return an absent result.  After dispose the
indexes are null and both lookups throw — see the counterexample theorem. -/
theorem lookup_miss_absent (p : PState) (m mn : List (String × Option Nat))
    (k : String)
    (hi : p.childIndex_ = some m) (hn : p.childNameIndex_ = some mn)
    (hmk : alookup m k = none) (hmn : alookup mn k = none) :
    (∀ j : String, ∃ r1 r2, getChildById p j = Except.ok r1 ∧
        getChild p j = Except.ok r2) ∧
    getChildById p k = Except.ok none ∧ getChild p k = Except.ok none := by
  refine ⟨fun j => ⟨(alookup m j).bind (fun v => v),
      (alookup mn j).bind (fun v => v), ?_, ?_⟩, ?_, ?_⟩ <;>
    simp [getChildById, getChild, hi, hn, hmk, hmn]

theorem lookup_miss_absent_witness :
    getChildById newParent "nope" = Except.ok none ∧
    getChild newParent "nope" = Except.ok none :=
  (lookup_miss_absent newParent [] [] "nope" rfl rfl rfl rfl).2

/-- Claim C9 counterexample: dispose nulls childIndex_/childNameIndex_, after
which getChildById / getChild throw a TypeError instead of returning an
absent result, so the claim is false for a disposed component. -/
theorem lookup_throws_after_dispose :
    getChildById (disposeContainers newParent) "someId"
        = Except.error "TypeError: childIndex_ is null" ∧
    getChild (disposeContainers newParent) "someName"
        = Except.error "TypeError: childNameIndex_ is null" := by
  exact ⟨rfl, rfl⟩

/-- Claim C8: on a live parent, addChild('X') (no options argument) returns a
child c such that getChildById(c.id()) and getChild('X') both resolve to c;
after removeChild(c) — and likewise after removeChild('X') — both lookups
resolve to an absent result. -/
theorem child_index_consistency (p : PState)
    (cs : List Nat) (idxm nmm : List (String × Option Nat)) (nm : String)
    (hc : p.children_ = some cs) (hi : p.childIndex_ = some idxm)
    (hn : p.childNameIndex_ = some nmm) (hnm : nm ≠ "") :
    ∃ tok idStr p1 p2 p3,
      addChildName p nm .undef = Except.ok (p1, tok) ∧
      (getObj p1 tok).map ChildObj.idv = some idStr ∧
      getChildById p1 idStr = Except.ok (some tok) ∧
      getChild p1 nm = Except.ok (some tok) ∧
      removeChildTok p1 tok = Except.ok p2 ∧
      getChildById p2 idStr = Except.ok none ∧
      getChild p2 nm = Except.ok none ∧
      removeChildName p1 nm = Except.ok p3 ∧
      getChildById p3 idStr = Except.ok none ∧
      getChild p3 nm = Except.ok none := by
  obtain ⟨H, T, G, ch, ci, cn, CC⟩ := p
  dsimp only at hc hi hn
  subst hc; subst hi; subst hn
  refine ⟨T, "player_component_" ++ toString G,
    ⟨(T, ⟨true, "player_component_" ++ toString G, true, some nm, true, some T⟩) :: H,
      T + 1, G + 1, some (cs ++ [T]),
      some (aset idxm ("player_component_" ++ toString G) (some T)),
      some (aset nmm nm (some T)), CC ++ [T]⟩,
    ⟨(T, ⟨true, "player_component_" ++ toString G, true, some nm, true, some T⟩) :: H,
      T + 1, G + 1, some (((cs ++ [T]).reverse.erase T).reverse),
      some (aset (aset idxm ("player_component_" ++ toString G) (some T))
        ("player_component_" ++ toString G) none),
      some (aset (aset nmm nm (some T)) nm none),
      (CC ++ [T]).erase T⟩,
    ⟨(T, ⟨true, "player_component_" ++ toString G, true, some nm, true, some T⟩) :: H,
      T + 1, G + 1, some (((cs ++ [T]).reverse.erase T).reverse),
      some (aset (aset idxm ("player_component_" ++ toString G) (some T))
        ("player_component_" ++ toString G) none),
      some (aset (aset nmm nm (some T)) nm none),
      (CC ++ [T]).erase T⟩,
    ?_, ?_, ?_, ?_, ?_, ?_, ?_, ?_, ?_, ?_⟩
  · simp [addChildName, addChildCommon, hnm]
  · simp [getObj]
  · simp [getChildById, alookup_aset_self]
  · simp [getChild, alookup_aset_self]
  · simp [removeChildTok, spliceLast, getObj, alookup_aset_self]
  · simp [getChildById, alookup_aset_self]
  · simp [getChild, alookup_aset_self]
  · simp [removeChildName, getChild, alookup_aset_self,
      removeChildTok, spliceLast, getObj]
  · simp [getChildById, alookup_aset_self]
  · simp [getChild, alookup_aset_self]

theorem child_index_consistency_witness :
    ∃ tok idStr p1 p2 p3,
      addChildName newParent "x" .undef = Except.ok (p1, tok) ∧
      (getObj p1 tok).map ChildObj.idv = some idStr ∧
      getChildById p1 idStr = Except.ok (some tok) ∧
      getChild p1 "x" = Except.ok (some tok) ∧
      removeChildTok p1 tok = Except.ok p2 ∧
      getChildById p2 idStr = Except.ok none ∧
      getChild p2 "x" = Except.ok none ∧
      removeChildName p1 "x" = Except.ok p3 ∧
      getChildById p3 idStr = Except.ok none ∧
      getChild p3 "x" = Except.ok none :=
  child_index_consistency newParent [] [] [] "x" rfl rfl rfl (by decide)

/-- Claim C10: addChild tolerates a pre-constructed child instance lacking an
id method (every index update in addChild is guarded by a type check), but
removeChild, having found that child in children_, unconditionally invokes
component.id() to null its index entry and therefore throws instead of
completing the removal. -/
theorem removeChild_throws_without_id (p : PState)
    (cs : List Nat) (idxm nmm : List (String × Option Nat))
    (tok : Nat) (c : ChildObj)
    (hc : p.children_ = some cs) (hi : p.childIndex_ = some idxm)
    (hn : p.childNameIndex_ = some nmm)
    (hobj : getObj p tok = some c) (hid : c.hasId = false) :
    ∃ p1, addChildInstance p tok = Except.ok (p1, tok) ∧
      removeChildTok p1 tok =
        Except.error "TypeError: component.id is not a function" := by
  obtain ⟨H, T, G, ch, ci, cn, CC⟩ := p
  dsimp only at hc hi hn
  subst hc; subst hi; subst hn
  simp only [getObj] at hobj
  refine ⟨⟨H, T, G, some (cs ++ [tok]), some idxm,
    some (match (if c.hasName then c.namev else none) with
          | some s => if s ≠ "" then aset nmm s (some tok) else nmm
          | none => nmm),
    if c.hasEl then
      (match c.elv with
       | some e => CC ++ [e]
       | none => CC)
    else CC⟩, ?_, ?_⟩
  · simp [addChildInstance, getObj, hobj, addChildCommon, hid]
  · simp [removeChildTok, spliceLast, getObj, hobj, hid]

theorem removeChild_throws_without_id_witness :
    ∃ p1, addChildInstance
        { newParent with heap := [(7, ⟨false, "", true, some "anon", true, some 3⟩)] } 7
          = Except.ok (p1, 7) ∧
      removeChildTok p1 7 =
        Except.error "TypeError: component.id is not a function" :=
  removeChild_throws_without_id
    { newParent with heap := [(7, ⟨false, "", true, some "anon", true, some 3⟩)] }
    [] [] [] 7 ⟨false, "", true, some "anon", true, some 3⟩
    rfl rfl rfl rfl rfl

/-- Claim C6 counterexample: passing false as the options argument to
addChild with a name does not skip the child: `if (!options) options = \x7b\x7d`
coerces false to an empty object and the child is constructed and appended
to the previously empty children list. -/
theorem addChild_false_options_constructs :
    (addChildName newParent "x" OptsV.fls).map (fun r => r.1.children_)
      = Except.ok (some [0]) := by
  rfl

/-- Claim C6 (amended): the false soft-disable applies during initChildren:
handleAdd skips the child entirely (no construction, parent state unchanged,
no error) both when the nested options value is false and when the parent's
top-level configuration shadows the nested options with false; addChild with
a name and options false instead coerces the options to an empty object and
constructs the child (see the counterexample theorem). -/
theorem child_false_options_behavior (p : PState)
    (parentOpts : List (String × OptsV)) (nm : String)
    (cs : List Nat)
    (hc : p.children_ = some cs) (hi : (p.childIndex_).isSome = true)
    (hn : (p.childNameIndex_).isSome = true) :
    ((alookup parentOpts nm = none ∨ alookup parentOpts nm = some OptsV.undef) →
       handleAdd p parentOpts nm OptsV.fls = Except.ok p) ∧
    (alookup parentOpts nm = some OptsV.fls →
       ∀ opts0 : OptsV, handleAdd p parentOpts nm opts0 = Except.ok p) ∧
    ∃ p1 tok, addChildName p nm OptsV.fls = Except.ok (p1, tok) ∧
      p1.children_ = some (cs ++ [tok]) := by
  obtain ⟨H, T, G, ch, ci, cn, CC⟩ := p
  obtain ⟨idxm, rfl⟩ : ∃ m, ci = some m := by
    cases ci with
    | none => simp at hi
    | some m => exact ⟨m, rfl⟩
  obtain ⟨nmm, rfl⟩ : ∃ m, cn = some m := by
    cases cn with
    | none => simp at hn
    | some m => exact ⟨m, rfl⟩
  dsimp only at hc
  subst hc
  refine ⟨?_, ?_, ?_⟩
  · rintro (h | h) <;> simp [handleAdd, h]
  · intro h opts0
    simp [handleAdd, h]
  · by_cases hnm : nm = ""
    · exact ⟨⟨(T, ⟨true, "player_component_" ++ toString G, true, none, true,
          some T⟩) :: H,
        T + 1, G + 1, some (cs ++ [T]),
        some (aset idxm ("player_component_" ++ toString G) (some T)),
        some nmm, CC ++ [T]⟩, T,
        by simp [addChildName, addChildCommon, hnm], rfl⟩
    · exact ⟨⟨(T, ⟨true, "player_component_" ++ toString G, true, some nm, true,
          some T⟩) :: H,
        T + 1, G + 1, some (cs ++ [T]),
        some (aset idxm ("player_component_" ++ toString G) (some T)),
        some (aset nmm nm (some T)), CC ++ [T]⟩, T,
        by simp [addChildName, addChildCommon, hnm], rfl⟩

theorem child_false_options_behavior_witness :
    ((alookup [("a", OptsV.obj none)] "x" = none ∨
        alookup [("a", OptsV.obj none)] "x" = some OptsV.undef) →
       handleAdd newParent [("a", OptsV.obj none)] "x" OptsV.fls
         = Except.ok newParent) ∧
    (alookup [("a", OptsV.obj none)] "x" = some OptsV.fls →
       ∀ opts0 : OptsV, handleAdd newParent [("a", OptsV.obj none)] "x" opts0
         = Except.ok newParent) ∧
    ∃ p1 tok, addChildName newParent "x" OptsV.fls = Except.ok (p1, tok) ∧
      p1.children_ = some ([] ++ [tok]) :=
  child_false_options_behavior newParent [("a", OptsV.obj none)] "x" []
    rfl rfl rfl

end CM

/-! ## Button.controlText and Component.localize

controlText is both getter and setter (the argument is none for a getter
call; an empty string is likewise falsy).  localize consults the player's
language dictionaries with a primary-subtag fallback. -/

namespace Btn

/-- The slice of the player that localize consults: `this.player_.language &&
this.player_.language()` and likewise languages() — none stands for a
missing method or an undefined result. -/
structure PlayerL where
  language? : Option String
  languages? : Option (List (String × List (String × String)))
deriving DecidableEq, Repr

/-- Truthy dictionary hit: `language && language[string]` — an entry that is
the empty string is falsy and falls through. -/
def lookupTruthy (d : List (String × String)) (s : String) : Option String :=
  match CM.alookup d s with
  | some t => if t = "" then none else some t
  | none => none

/-- The primary-subtag fallback of localize: `code.split('-')[0]`. -/
def primaryLookup (langs : List (String × List (String × String)))
    (code s : String) : String :=
  let primaryCode := (code.splitOn "-").headD ""
  match CM.alookup langs primaryCode with
  | some d =>
    match lookupTruthy d s with
    | some t => t
    | none => s
  | none => s

/-- Component.localize: falsy code or missing languages returns the string
unchanged; else the code dictionary, else the primary-subtag dictionary,
else the string unchanged. -/
def localize (pl : PlayerL) (s : String) : String :=
  match pl.language?, pl.languages? with
  | some code, some langs =>
    if code = "" then s
    else
      match CM.alookup langs code with
      | some dict =>
        match lookupTruthy dict s with
        | some t => t
        | none => primaryLookup langs code s
      | none => primaryLookup langs code s
  | _, _ => s

structure ButtonState where
  controlText_ : Option String
  controlTextElHTML : String
deriving DecidableEq, Repr

/-- A Button whose controlText was never set (controlText_ undefined; the
label span starts empty). -/
def newButton : ButtonState := ⟨none, ""⟩

inductive CTResult where
  | got (s : String)
  | setOk (b : ButtonState)
deriving DecidableEq, Repr

/-- The getter result: `this.controlText_ || 'Need Text'`. -/
def fallback (b : ButtonState) : String :=
  match b.controlText_ with
  | some s => if s = "" then "Need Text" else s
  | none => "Need Text"

/-- Button.controlText: `if (!text) return this.controlText_ || 'Need Text';
this.controlText_ = text; this.controlTextEl_.innerHTML =
this.localize(this.controlText_); return this;`. -/
def controlText (pl : PlayerL) (b : ButtonState) (text : Option String) :
    CTResult :=
  match text with
  | none => .got (fallback b)
  | some t =>
      if t = "" then .got (fallback b)
      else .setOk { controlText_ := some t, controlTextElHTML := localize pl t }

/-- A player with a Spanish dictionary translating Play to Jugar. -/
def demoPlayer : PlayerL := ⟨some "es", some [("es", [("Play", "Jugar")])]⟩

/-- Claim C7 counterexample: with a dictionary in which the localized form of
Play differs from Play, the getter after controlText('Play') returns the raw
stored value 'Play', not the localized form 'Jugar' (which is what the label
sub-element receives), so the claim that the getter returns the localized
form is false. -/
theorem controlText_getter_not_localized :
    controlText demoPlayer newButton (some "Play")
        = .setOk ⟨some "Play", "Jugar"⟩ ∧
    controlText demoPlayer ⟨some "Play", "Jugar"⟩ none = .got "Play" ∧
    localize demoPlayer "Play" = "Jugar" ∧
    "Play" ≠ "Jugar" :=
  ⟨rfl, rfl, rfl, by decide⟩

/-- Claim C7 (amended): a Button on which controlText has never been set
returns the fallback placeholder from controlText(); after controlText(t)
with a non-empty t, the setter re-renders the label sub-element with the
localized form of t, and a subsequent controlText() returns t itself — the
last set value, not its localized form. -/
theorem controlText_spec (pl : PlayerL) (b : ButtonState) (t : String)
    (ht : t ≠ "") :
    controlText pl newButton none = .got "Need Text" ∧
    controlText pl b (some t) = .setOk ⟨some t, localize pl t⟩ ∧
    controlText pl ⟨some t, localize pl t⟩ none = .got t := by
  refine ⟨rfl, ?_, ?_⟩ <;> simp [controlText, fallback, ht]

theorem controlText_spec_witness :
    controlText demoPlayer newButton none = .got "Need Text" ∧
    controlText demoPlayer newButton (some "Play")
        = .setOk ⟨some "Play", localize demoPlayer "Play"⟩ ∧
    controlText demoPlayer ⟨some "Play", localize demoPlayer "Play"⟩ none
        = .got "Play" :=
  controlText_spec demoPlayer newButton "Play" (by decide)

end Btn

/-! ## Ready lifecycle (Component.ready / Component.triggerReady)

State: isReady_ flag plus readyQueue_ (the queue of deferred callbacks,
identified by tokens).  Asynchrony: `this.setTimeout(fn, 1)` schedules a
macrotask; scheduled macrotasks are an explicit ordered list, executed
strictly after the scheduling call returns (modelled from the spec: deferred
callback scheduling always runs on a later turn, never inline).  The events
list a call returns is the callback activity that happens synchronously
inside it. -/

namespace Rdy

/-- A deferred macrotask: a single ready callback scheduled by ready() on an
already-ready component, or the drain closure scheduled by triggerReady(). -/
inductive RTask where
  | runCb (cb : Nat)
  | drainReady
deriving DecidableEq, Repr

structure RState where
  isReady_ : Bool
  readyQueue_ : List Nat
deriving DecidableEq, Repr

structure RWorld where
  st : RState
  tasks : List RTask
deriving DecidableEq, Repr

/-- Observable callback activity: a ready callback invoked (with the
component as receiver — `fn.call(this)`, and Fn.bind(this, fn) in the
setTimeout path), or the 'ready' event being triggered. -/
inductive REvent where
  | ran (cb : Nat)
  | emittedReady
deriving DecidableEq, Repr

/-- Component.ready(fn): if already Ready, `this.setTimeout(fn, 1)` — an
asynchronous macrotask, nothing synchronous; otherwise push onto
readyQueue_. -/
def ready (w : RWorld) (fn : Nat) : RWorld × List REvent :=
  if w.st.isReady_ then
    ({ w with tasks := w.tasks ++ [.runCb fn] }, [])
  else
    ({ w with st := { w.st with readyQueue_ := w.st.readyQueue_ ++ [fn] } }, [])

/-- Component.triggerReady(): `this.isReady_ = true` then schedule the drain
closure via setTimeout(..., 1); nothing runs synchronously. -/
def triggerReady (w : RWorld) : RWorld × List REvent :=
  ({ st := { w.st with isReady_ := true }, tasks := w.tasks ++ [.drainReady] }, [])

/-- Execute one scheduled macrotask.  drainReady is the closure inside
triggerReady: if readyQueue_ is nonempty, call each queued fn in order and
reset the queue; in either case then trigger the 'ready' event. -/
def runTask (s : RState) : RTask → RState × List REvent
  | .runCb cb => (s, [.ran cb])
  | .drainReady =>
      if s.readyQueue_.isEmpty then (s, [.emittedReady])
      else ({ s with readyQueue_ := [] }, s.readyQueue_.map .ran ++ [.emittedReady])

/-- Run the scheduled macrotasks in order (neither task kind schedules
further tasks). -/
def runAll (s : RState) : List RTask → RState × List REvent
  | [] => (s, [])
  | t :: ts =>
      let p := runTask s t
      let q := runAll p.1 ts
      (q.1, p.2 ++ q.2)

/-- Register a list of ready callbacks in order. -/
def registerAll (w : RWorld) (fns : List Nat) : RWorld :=
  fns.foldl (fun w fn => (ready w fn).1) w

theorem registerAll_pending (q0 : List Nat) (ts : List RTask) (fns : List Nat) :
    registerAll ⟨⟨false, q0⟩, ts⟩ fns = ⟨⟨false, q0 ++ fns⟩, ts⟩ := by
  induction fns generalizing q0 with
  | nil => simp [registerAll]
  | cons f fs ih =>
      simp only [registerAll, List.foldl_cons, ready] at ih ⊢
      simp [ih, List.append_assoc]

/-- Claim C4: ready(fn) on an already-Ready component schedules fn
asynchronously exactly once and runs nothing synchronously; on a pending
component it only enqueues.  triggerReady() sets Ready synchronously,
schedules a single drain task, and that task — one later tick — runs the
queued callbacks in enqueue order, clears the queue, and then (same tick,
queue first) emits the 'ready' event.  The last conjunct is the end-to-end
run: callbacks registered before readiness, then triggerReady, then the
macrotasks. -/
theorem ready_lifecycle (b : Bool) (q fns : List Nat) (ts : List RTask)
    (fn : Nat) :
    (ready ⟨⟨true, q⟩, ts⟩ fn = (⟨⟨true, q⟩, ts ++ [.runCb fn]⟩, [])) ∧
    (ready ⟨⟨false, q⟩, ts⟩ fn = (⟨⟨false, q ++ [fn]⟩, ts⟩, [])) ∧
    (runAll ((ready ⟨⟨true, q⟩, []⟩ fn).1).st ((ready ⟨⟨true, q⟩, []⟩ fn).1).tasks
        = (⟨true, q⟩, [.ran fn])) ∧
    (triggerReady ⟨⟨b, q⟩, ts⟩ = (⟨⟨true, q⟩, ts ++ [.drainReady]⟩, [])) ∧
    (runTask ⟨true, q⟩ .drainReady
        = (⟨true, []⟩, q.map .ran ++ [.emittedReady])) ∧
    (runAll ((triggerReady (registerAll ⟨⟨false, []⟩, []⟩ fns)).1).st
        ((triggerReady (registerAll ⟨⟨false, []⟩, []⟩ fns)).1).tasks
        = (⟨true, []⟩, fns.map .ran ++ [.emittedReady])) := by
  refine ⟨by simp [ready], by simp [ready], ?_, by simp [triggerReady], ?_, ?_⟩
  · simp [ready, runAll, runTask]
  · cases q with
    | nil => simp [runTask]
    | cons a l => simp [runTask]
  · rw [registerAll_pending]
    simp only [triggerReady]
    cases fns with
    | nil => simp [runAll, runTask]
    | cons f fs => simp [runAll, runTask]

end Rdy

/-! ## Event delegation, disposal and scoped timers
(Component.on / Component.off / Component.dispose / Component.setTimeout /
Component.setInterval / Component.clearTimeout / Component.clearInterval)

A world of components, each with its element's listener list, child
containers, and element state, plus the platform's pending timers.  The
event utility (src/js/utils/events.js) and Fn.bind (src/js/utils/fn.js) are
not under src/; they are modelled from the spec: every registration is
tagged with an identity token (the guid Fn.bind copies onto the bound
function) so it can be matched for removal, and dispatch runs over a
snapshot of the type's handler list.  The bookkeeping closures component.js
installs (removeOnDispose, cleanRemover, the timer disposeFns) are handler
kinds interpreted by runHandler; opaque user handlers leave the modelled
state unchanged. -/

namespace Ev

/-- Listener identity tokens: ordinary guids, and the id-derived timer hook
tokens (the source strings vjs-timeout-N / vjs-interval-N). -/
inductive Guid where
  | g (n : Nat)
  | timeoutG (id : Nat)
  | intervalG (id : Nat)
deriving DecidableEq, Repr

/-- What a registered handler does when invoked. -/
inductive HKind where
  | user
  | removeOnDispose (self target : Nat) (ty : String)
  | cleanRemover (self : Nat)
  | timeoutHook (self tid : Nat)
  | intervalHook (self iid : Nat)
deriving DecidableEq, Repr

structure Listener where
  ty : String
  guid : Guid
  kind : HKind
deriving DecidableEq, Repr

/-- One component: child containers (null after dispose), the element's
listener list, and element state (attached to a parent node / non-null). -/
structure Comp where
  children_ : Option (List Nat)
  childIndexLive : Bool
  childNameIndexLive : Bool
  listeners : List Listener
  elAttached : Bool
  elLive : Bool
deriving DecidableEq, Repr

structure World where
  comps : List (Nat × Comp)
  pendingTimeouts : List Nat
  pendingIntervals : List Nat
  nextTimerId : Nat
deriving DecidableEq, Repr

def lookupC : List (Nat × Comp) → Nat → Option Comp
  | [], _ => none
  | kv :: rest, c => if kv.1 = c then some kv.2 else lookupC rest c

def updateC (f : Comp → Comp) (c : Nat) : List (Nat × Comp) → List (Nat × Comp)
  | [] => []
  | kv :: rest => (if kv.1 = c then (kv.1, f kv.2) else kv) :: updateC f c rest

def getComp (w : World) (c : Nat) : Option Comp :=
  lookupC w.comps c

def updateComp (w : World) (c : Nat) (f : Comp → Comp) : World :=
  { w with comps := updateC f c w.comps }

/-- Modelled from the spec: Events.on — append the handler to the element's
handler list for its type. -/
def addListener (w : World) (c : Nat) (l : Listener) : World :=
  updateComp w c (fun k => { k with listeners := k.listeners ++ [l] })

/-- Modelled from the spec: Events.off(el, type, fn) — remove the handlers of
that type whose identity token matches fn's guid. -/
def removeListenersByGuid (w : World) (c : Nat) (ty : String) (g : Guid) :
    World :=
  updateComp w c (fun k =>
    { k with listeners :=
        k.listeners.filter (fun l => !(l.ty == ty && l.guid == g)) })

/-- The dispose-time `this.off()` with no arguments: remove every listener
from this component's element. -/
def offAll (w : World) (c : Nat) : World :=
  updateComp w c (fun k => { k with listeners := [] })

/-- Component.off, observed branch, component target: `this.off('dispose',
fn)` on self, then `target.off(type, fn)` and `target.off('dispose', fn)`,
all matched by the same token. -/
def offObserved (w : World) (self target : Nat) (ty : String) (g : Guid) :
    World :=
  let w1 := removeListenersByGuid w self "dispose" g
  let w2 := removeListenersByGuid w1 target ty g
  removeListenersByGuid w2 target "dispose" g

/-- Component.clearTimeout: window.clearTimeout(timeoutId) plus removal of
the dispose hook matched by the vjs-timeout-id token. -/
def clearTimeoutOp (w : World) (self tid : Nat) : World :=
  let w1 := { w with pendingTimeouts := w.pendingTimeouts.erase tid }
  removeListenersByGuid w1 self "dispose" (.timeoutG tid)

/-- Component.clearInterval: window.clearInterval(intervalId) plus removal
of the dispose hook matched by the vjs-interval-id token. -/
def clearIntervalOp (w : World) (self iid : Nat) : World :=
  let w1 := { w with pendingIntervals := w.pendingIntervals.erase iid }
  removeListenersByGuid w1 self "dispose" (.intervalG iid)

/-- Invoke one handler: the bookkeeping closures of component.js; opaque
user handlers do not touch the modelled state. -/
def runHandler (w : World) (l : Listener) : World :=
  match l.kind with
  | .user => w
  | .removeOnDispose self target ty => offObserved w self target ty l.guid
  | .cleanRemover self => removeListenersByGuid w self "dispose" l.guid
  | .timeoutHook self tid => clearTimeoutOp w self tid
  | .intervalHook self iid => clearIntervalOp w self iid

/-- Events.trigger on the component's element: run the type's handlers over
a snapshot of the handler list (modelled from the spec). -/
def trigger (w : World) (c : Nat) (ty : String) : World :=
  match getComp w c with
  | none => w
  | some k => (k.listeners.filter (fun l => l.ty == ty)).foldl runHandler w

/-- Component.on(target, type, handler), component-target branch: bind the
handler (token g), register removeOnDispose — same token — on this
component's dispose, then `target.on(type, fn)` and `target.on('dispose',
cleanRemover)` — cleanRemover carrying the same token. -/
def onObserved (w : World) (self target : Nat) (ty : String) (g : Guid) :
    World :=
  let w1 := addListener w self ⟨"dispose", g, .removeOnDispose self target ty⟩
  let w2 := addListener w1 target ⟨ty, g, .user⟩
  addListener w2 target ⟨"dispose", g, .cleanRemover self⟩

/-- Component.setTimeout: create the platform timer (fresh id), then
register the disposeFn hook with the id-derived token on this component's
dispose event.  Returns the timeout id. -/
def setTimeoutOp (w : World) (self : Nat) : World × Nat :=
  let tid := w.nextTimerId
  let w1 := { w with pendingTimeouts := w.pendingTimeouts ++ [tid],
                     nextTimerId := w.nextTimerId + 1 }
  (addListener w1 self ⟨"dispose", .timeoutG tid, .timeoutHook self tid⟩, tid)

/-- Component.setInterval, same shape as setTimeout. -/
def setIntervalOp (w : World) (self : Nat) : World × Nat :=
  let iid := w.nextTimerId
  let w1 := { w with pendingIntervals := w.pendingIntervals ++ [iid],
                     nextTimerId := w.nextTimerId + 1 }
  (addListener w1 self ⟨"dispose", .intervalG iid, .intervalHook self iid⟩, iid)

/-- The platform only fires a timer that is still pending. -/
def timerWillFire (w : World) (tid : Nat) : Bool :=
  w.pendingTimeouts.contains tid

def intervalWillFire (w : World) (iid : Nat) : Bool :=
  w.pendingIntervals.contains iid

/-- Trace of the externally visible steps of Component.dispose. -/
inductive Action where
  | triggered (c : Nat) (ty : String) (bubbles : Bool)
  | disposedChild (c : Nat)
  | clearedContainers (c : Nat)
  | removedAllListeners (c : Nat)
  | detachedEl (c : Nat)
  | removedElData (c : Nat)
  | nulledEl (c : Nat)
deriving DecidableEq, Repr

/-- Component.dispose, fuel-indexed for the recursion into children (fuel 0
is never reached when the fuel exceeds the tree depth): trigger the
non-bubbling dispose event first; then dispose the children from the last
index down; then null the three child containers; then this.off(); then
detach the element if it has a parent node; then remove element data and
null the element reference. -/
def dispose : Nat → World → Nat → World × List Action
  | 0, w, _ => (w, [])
  | fuel + 1, w, c =>
    match getComp w c with
    | none => (w, [])
    | some _ =>
      let w1 := trigger w c "dispose"
      let childFold :=
        match (getComp w1 c).bind (fun k => k.children_) with
        | some cs => cs.reverse.foldl
            (fun (acc : World × List Action) ch =>
              let r := dispose fuel acc.1 ch
              (r.1, acc.2 ++ Action.disposedChild ch :: r.2))
            (w1, [])
        | none => (w1, [])
      let w3 := updateComp childFold.1 c (fun k =>
        { k with children_ := none, childIndexLive := false,
                 childNameIndexLive := false })
      let w4 := updateComp w3 c (fun k => { k with listeners := [] })
      let attached := ((getComp w4 c).map (fun k => k.elAttached)).getD false
      let w5 := updateComp w4 c (fun k =>
        { k with elAttached := false, elLive := false })
      (w5, Action.triggered c "dispose" false :: childFold.2 ++
        [Action.clearedContainers c, Action.removedAllListeners c] ++
        (if attached then [Action.detachedEl c] else []) ++
        [Action.removedElData c, Action.nulledEl c])

/-- A freshly mounted childless component with no listeners. -/
def leafComp : Comp := ⟨some [], true, true, [], true, true⟩

/-- The end state of any disposed component: containers null, listeners
removed, element detached and nulled. -/
def disposedComp : Comp := ⟨none, false, false, [], false, false⟩

/-- The dispose trace of a childless component with effect-free dispose
handlers. -/
def leafTrace (c : Nat) (att : Bool) : List Action :=
  Action.triggered c "dispose" false ::
    [Action.clearedContainers c, Action.removedAllListeners c] ++
    (if att then [Action.detachedEl c] else []) ++
    [Action.removedElData c, Action.nulledEl c]

theorem getComp_updateComp_self (w : World) (c : Nat) (f : Comp → Comp) :
    getComp (updateComp w c f) c = (getComp w c).map f := by
  simp only [getComp, updateComp]
  induction w.comps with
  | nil => simp [lookupC, updateC]
  | cons kv rest ih =>
      by_cases h : kv.1 = c
      · simp [lookupC, updateC, h]
      · simp [lookupC, updateC, h, ih]

theorem getComp_updateComp_ne (w : World) (c d : Nat) (f : Comp → Comp)
    (h : d ≠ c) : getComp (updateComp w c f) d = getComp w d := by
  simp only [getComp, updateComp]
  induction w.comps with
  | nil => simp [lookupC, updateC]
  | cons kv rest ih =>
      by_cases hk : kv.1 = c
      · have hkd : kv.1 ≠ d := by omega
        simp [lookupC, updateC, hk, hkd, Ne.symm h, ih]
      · by_cases hd : kv.1 = d
        · simp [lookupC, updateC, hk, hd, h]
        · simp [lookupC, updateC, hk, hd, ih]

theorem updateComp_updateComp (w : World) (c : Nat) (f g : Comp → Comp) :
    updateComp (updateComp w c f) c g = updateComp w c (fun k => g (f k)) := by
  simp only [updateComp]
  congr 1
  induction w.comps with
  | nil => simp [updateC]
  | cons kv rest ih =>
      by_cases h : kv.1 = c
      · simp [updateC, h, ih]
      · simp [updateC, h, ih]

theorem pendingTimeouts_updateComp (w : World) (c : Nat) (f : Comp → Comp) :
    (updateComp w c f).pendingTimeouts = w.pendingTimeouts := rfl

theorem pendingIntervals_updateComp (w : World) (c : Nat) (f : Comp → Comp) :
    (updateComp w c f).pendingIntervals = w.pendingIntervals := rfl

theorem foldl_runHandler_user (w : World) (ls : List Listener)
    (h : ∀ l ∈ ls, l.kind = HKind.user) : ls.foldl runHandler w = w := by
  induction ls with
  | nil => rfl
  | cons l rest ih =>
      rw [List.foldl_cons]
      have hstep : runHandler w l = w := by
        rw [runHandler, h l (by simp)]
      rw [hstep]
      exact ih (fun x hx => h x (by simp [hx]))

theorem trigger_user_only (w : World) (c : Nat) (ty : String) (k : Comp)
    (hk : getComp w c = some k)
    (h : ∀ l ∈ k.listeners, l.kind = HKind.user) :
    trigger w c ty = w := by
  rw [trigger, hk]
  exact foldl_runHandler_user _ _ (fun l hl => h l (List.mem_of_mem_filter hl))

theorem dispose_leaf (n : Nat) (w : World) (c : Nat) (k : Comp)
    (hk : getComp w c = some k) (hch : k.children_ = some [])
    (hl : ∀ l ∈ k.listeners, l.kind = HKind.user) :
    dispose (n + 1) w c =
      (updateComp w c (fun _ => disposedComp), leafTrace c k.elAttached) := by
  have ht : trigger w c "dispose" = w := trigger_user_only w c "dispose" k hk hl
  simp only [dispose, ht, hk, Option.some_bind, hch, List.reverse_nil,
    List.foldl_nil, updateComp_updateComp, getComp_updateComp_self,
    Option.map_some', Option.getD_some, leafTrace, disposedComp]
  rfl

/-- Sequentially mark a list of components disposed. -/
def disposeList (w : World) (cs : List Nat) : World :=
  cs.foldl (fun w ch => updateComp w ch (fun _ => disposedComp)) w

theorem getComp_disposeList_notMem (w : World) (cs : List Nat) (d : Nat)
    (h : d ∉ cs) : getComp (disposeList w cs) d = getComp w d := by
  induction cs generalizing w with
  | nil => rfl
  | cons ch rest ih =>
      simp only [disposeList, List.foldl_cons]
      have hd : d ∉ rest := fun hx => h (by simp [hx])
      have hne : d ≠ ch := fun hx => h (by simp [hx])
      rw [show (rest.foldl (fun w ch => updateComp w ch (fun _ => disposedComp))
            (updateComp w ch (fun _ => disposedComp)))
          = disposeList (updateComp w ch (fun _ => disposedComp)) rest from rfl]
      rw [ih _ hd, getComp_updateComp_ne _ _ _ _ hne]

/-- One unfolding step of dispose at positive fuel (the literal body). -/
theorem dispose_succ (fuel : Nat) (w : World) (c : Nat) :
    dispose (fuel + 1) w c =
      match getComp w c with
      | none => (w, [])
      | some _ =>
        let w1 := trigger w c "dispose"
        let childFold :=
          match (getComp w1 c).bind (fun k => k.children_) with
          | some cs => cs.reverse.foldl
              (fun (acc : World × List Action) ch =>
                let r := dispose fuel acc.1 ch
                (r.1, acc.2 ++ Action.disposedChild ch :: r.2))
              (w1, [])
          | none => (w1, [])
        let w3 := updateComp childFold.1 c (fun k =>
          { k with children_ := none, childIndexLive := false,
                   childNameIndexLive := false })
        let w4 := updateComp w3 c (fun k => { k with listeners := [] })
        let attached := ((getComp w4 c).map (fun k => k.elAttached)).getD false
        let w5 := updateComp w4 c (fun k =>
          { k with elAttached := false, elLive := false })
        (w5, Action.triggered c "dispose" false :: childFold.2 ++
          [Action.clearedContainers c, Action.removedAllListeners c] ++
          (if attached then [Action.detachedEl c] else []) ++
          [Action.removedElData c, Action.nulledEl c]) := rfl

theorem dispose_fold_leaves (m : Nat) (cs : List Nat) :
    ∀ (w : World) (acc : List Action),
    (∀ ch ∈ cs, getComp w ch = some leafComp) → cs.Nodup →
    (cs.foldl (fun (a : World × List Action) ch =>
        let r := dispose (m + 1) a.1 ch
        (r.1, a.2 ++ Action.disposedChild ch :: r.2)) (w, acc)) =
      (disposeList w cs,
       acc ++ cs.flatMap (fun ch => Action.disposedChild ch :: leafTrace ch true)) := by
  induction cs with
  | nil =>
      intro w acc _ _
      simp [disposeList]
  | cons ch rest ih =>
      intro w acc hmem hnd
      rw [List.foldl_cons]
      have hch : getComp w ch = some leafComp := hmem ch (by simp)
      have hleaf := dispose_leaf m w ch leafComp hch rfl
        (fun l hl => by simp [leafComp] at hl)
      simp only [hleaf]
      have hnotrest : ch ∉ rest := (List.nodup_cons.mp hnd).1
      have hmem' : ∀ c2 ∈ rest, getComp (updateComp w ch (fun _ => disposedComp)) c2
          = some leafComp := by
        intro c2 hc2
        have : c2 ≠ ch := fun hx => hnotrest (hx ▸ hc2)
        rw [getComp_updateComp_ne _ _ _ _ this]
        exact hmem c2 (by simp [hc2])
      rw [ih _ _ hmem' (List.nodup_cons.mp hnd).2]
      simp [disposeList, leafComp, List.append_assoc]

theorem filterMap_disposedChild_leafTraces (xs : List Nat) :
    (xs.flatMap (fun ch => Action.disposedChild ch :: leafTrace ch true)).filterMap
      (fun a => match a with
        | Action.disposedChild ch => some ch
        | _ => none) = xs := by
  induction xs with
  | nil => rfl
  | cons x r ih =>
      rw [List.flatMap_cons, List.filterMap_append, ih]
      simp [leafTrace]

/-- Claim C2: dispose() first emits the non-bubbling dispose event (the
head of the trace, before any teardown step), then disposes the children in
strict reverse insertion order (the filterMap conjunct: for children added
in order cs, the child dispose calls occur in cs.reverse order), then clears
the three child containers, removes the component's own listeners, detaches
its element if mounted, and finally nulls the element reference; the final
state conjunct shows all containers null, listeners gone and the element
released. -/
theorem dispose_event_then_reverse_children (n : Nat) (w : World) (p : Nat)
    (pk : Comp) (cs : List Nat)
    (hp : getComp w p = some pk) (hcs : pk.children_ = some cs)
    (hl : ∀ l ∈ pk.listeners, l.kind = HKind.user)
    (hkids : ∀ ch ∈ cs, getComp w ch = some leafComp)
    (hnd : cs.Nodup) (hpn : p ∉ cs) :
    (dispose (n + 2) w p).2 =
      Action.triggered p "dispose" false ::
        cs.reverse.flatMap (fun ch => Action.disposedChild ch :: leafTrace ch true) ++
        [Action.clearedContainers p, Action.removedAllListeners p] ++
        (if pk.elAttached then [Action.detachedEl p] else []) ++
        [Action.removedElData p, Action.nulledEl p] ∧
    (dispose (n + 2) w p).2.filterMap
        (fun a => match a with
          | Action.disposedChild ch => some ch
          | _ => none) = cs.reverse ∧
    getComp (dispose (n + 2) w p).1 p = some disposedComp := by
  have ht : trigger w p "dispose" = w := trigger_user_only w p "dispose" pk hp hl
  have hfold := dispose_fold_leaves n cs.reverse w []
    (fun ch hch => hkids ch (List.mem_reverse.mp hch))
    (List.nodup_reverse.mpr hnd)
  have hpn' : p ∉ cs.reverse := fun hx => hpn (List.mem_reverse.mp hx)
  have hgp : getComp (disposeList w cs.reverse) p = some pk := by
    rw [getComp_disposeList_notMem w _ p hpn', hp]
  have hdisp : dispose (n + 2) w p =
      (updateComp (disposeList w cs.reverse) p (fun _ => disposedComp),
       Action.triggered p "dispose" false ::
         cs.reverse.flatMap (fun ch => Action.disposedChild ch :: leafTrace ch true) ++
         [Action.clearedContainers p, Action.removedAllListeners p] ++
         (if pk.elAttached then [Action.detachedEl p] else []) ++
         [Action.removedElData p, Action.nulledEl p]) := by
    show dispose (n + 1 + 1) w p = _
    rw [dispose_succ]
    simp only [ht, hp, Option.some_bind, hcs, hfold,
      updateComp_updateComp, getComp_updateComp_self, hgp,
      Option.map_some', Option.getD_some, List.nil_append]
    rfl
  refine ⟨by rw [hdisp], ?_, ?_⟩
  · rw [hdisp]
    by_cases ha : pk.elAttached = true <;>
      simp [ha, filterMap_disposedChild_leafTraces]
  · rw [hdisp]
    rw [getComp_updateComp_self, hgp]
    rfl

/-- A parent (id 0) with children 1, 2, 3 added in that order, each a
mounted childless leaf. -/
def demoWorld : World :=
  ⟨[(0, ⟨some [1, 2, 3], true, true, [], true, true⟩),
    (1, leafComp), (2, leafComp), (3, leafComp)], [], [], 0⟩

theorem dispose_event_then_reverse_children_witness :
    (dispose 2 demoWorld 0).2 =
      Action.triggered 0 "dispose" false ::
        [1, 2, 3].reverse.flatMap
          (fun ch => Action.disposedChild ch :: leafTrace ch true) ++
        [Action.clearedContainers 0, Action.removedAllListeners 0] ++
        (if true then [Action.detachedEl 0] else []) ++
        [Action.removedElData 0, Action.nulledEl 0] ∧
    (dispose 2 demoWorld 0).2.filterMap
        (fun a => match a with
          | Action.disposedChild ch => some ch
          | _ => none) = [1, 2, 3].reverse ∧
    getComp (dispose 2 demoWorld 0).1 0 = some disposedComp :=
  dispose_event_then_reverse_children 0 demoWorld 0
    ⟨some [1, 2, 3], true, true, [], true, true⟩ [1, 2, 3]
    rfl rfl (by simp) (by decide) (by decide) (by decide)

theorem filter_no_guid (ls : List Listener) (ty : String) (g : Guid)
    (h : ∀ l ∈ ls, l.guid ≠ g) :
    ls.filter (fun l => !(l.ty == ty && l.guid == g)) = ls := by
  apply List.filter_eq_self.mpr
  intro l hl
  simp [h l hl]

theorem getComp_setPending (w : World) (pts pints : List Nat) (nt : Nat)
    (c : Nat) : getComp ⟨w.comps, pts, pints, nt⟩ c = getComp w c := rfl

/-- Claim C1: P registers an observed listener on Q with token g.  The
registration installs the listener and the cleanRemover on Q and the
removeOnDispose on P (first conjuncts).  Disposing P first runs
removeOnDispose, which removes the handler and the cleanRemover from Q's
side — Q is returned exactly to its pre-registration state.  Disposing Q
first runs cleanRemover, which removes P's dispose-tagged removal with the
same token — P is returned exactly to its pre-registration state, so its
later dispose touches only P and leaves the dead target alone (final
conjuncts).  Whichever side disposes first, both sides' bookkeeping for the
registration is gone. -/
theorem observed_listener_bidirectional_cleanup (w : World) (P Q : Nat)
    (pc qc : Comp) (ty : String) (g : Guid)
    (hPQ : P ≠ Q)
    (hP : getComp w P = some pc) (hQ : getComp w Q = some qc)
    (hpch : pc.children_ = some []) (hqch : qc.children_ = some [])
    (hpl : ∀ l ∈ pc.listeners, l.kind = HKind.user ∧ l.guid ≠ g)
    (hql : ∀ l ∈ qc.listeners, l.kind = HKind.user ∧ l.guid ≠ g)
    (hty : ty ≠ "dispose") :
    getComp (onObserved w P Q ty g) P =
      some { pc with listeners := pc.listeners ++
        [⟨"dispose", g, HKind.removeOnDispose P Q ty⟩] } ∧
    getComp (onObserved w P Q ty g) Q =
      some { qc with listeners := qc.listeners ++
        [⟨ty, g, HKind.user⟩, ⟨"dispose", g, HKind.cleanRemover P⟩] } ∧
    getComp (dispose 1 (onObserved w P Q ty g) P).1 Q = some qc ∧
    getComp (dispose 1 (onObserved w P Q ty g) P).1 P = some disposedComp ∧
    getComp (dispose 1 (onObserved w P Q ty g) Q).1 P = some pc ∧
    getComp (dispose 1 (onObserved w P Q ty g) Q).1 Q = some disposedComp ∧
    getComp (dispose 1 (dispose 1 (onObserved w P Q ty g) Q).1 P).1 P
      = some disposedComp ∧
    getComp (dispose 1 (dispose 1 (onObserved w P Q ty g) Q).1 P).1 Q
      = some disposedComp := by
  have hw1P : getComp (onObserved w P Q ty g) P =
      some { pc with listeners := pc.listeners ++
        [⟨"dispose", g, HKind.removeOnDispose P Q ty⟩] } := by
    simp only [onObserved, addListener]
    rw [getComp_updateComp_ne _ _ _ _ hPQ, getComp_updateComp_ne _ _ _ _ hPQ,
      getComp_updateComp_self, hP]
    rfl
  have hw1Q : getComp (onObserved w P Q ty g) Q =
      some { qc with listeners := qc.listeners ++
        [⟨ty, g, HKind.user⟩, ⟨"dispose", g, HKind.cleanRemover P⟩] } := by
    simp only [onObserved, addListener]
    rw [getComp_updateComp_self, getComp_updateComp_self,
      getComp_updateComp_ne _ _ _ _ (Ne.symm hPQ), hQ]
    simp
  have htrigP : trigger (onObserved w P Q ty g) P "dispose" =
      offObserved (onObserved w P Q ty g) P Q ty g := by
    simp only [trigger, hw1P]
    rw [List.filter_append, List.foldl_append,
      foldl_runHandler_user _ _ (fun l hl => (hpl l (List.mem_of_mem_filter hl)).1)]
    simp [runHandler]
  have e1 : (pc.listeners ++
        [Listener.mk "dispose" g (HKind.removeOnDispose P Q ty)]).filter
      (fun l => !(l.ty == "dispose" && l.guid == g)) = pc.listeners := by
    rw [List.filter_append, filter_no_guid _ _ _ (fun l hl => (hpl l hl).2)]
    simp
  have e2a : (qc.listeners ++
        [Listener.mk ty g HKind.user,
         Listener.mk "dispose" g (HKind.cleanRemover P)]).filter
      (fun l => !(l.ty == ty && l.guid == g))
      = qc.listeners ++ [Listener.mk "dispose" g (HKind.cleanRemover P)] := by
    rw [List.filter_append, filter_no_guid _ _ _ (fun l hl => (hql l hl).2)]
    simp [hty, Ne.symm hty]
  have e2b : (qc.listeners ++
        [Listener.mk "dispose" g (HKind.cleanRemover P)]).filter
      (fun l => !(l.ty == "dispose" && l.guid == g)) = qc.listeners := by
    rw [List.filter_append, filter_no_guid _ _ _ (fun l hl => (hql l hl).2)]
    simp
  have hTP : getComp (offObserved (onObserved w P Q ty g) P Q ty g) P
      = some pc := by
    simp only [offObserved, removeListenersByGuid]
    rw [getComp_updateComp_ne _ _ _ _ hPQ, getComp_updateComp_ne _ _ _ _ hPQ,
      getComp_updateComp_self, hw1P]
    dsimp only [Option.map_some']
    rw [e1]
  have hTQ : getComp (offObserved (onObserved w P Q ty g) P Q ty g) Q
      = some qc := by
    simp only [offObserved, removeListenersByGuid]
    rw [getComp_updateComp_self, getComp_updateComp_self,
      getComp_updateComp_ne _ _ _ _ (Ne.symm hPQ), hw1Q]
    dsimp only [Option.map_some']
    rw [e2a, e2b]
  have hdispP : (dispose 1 (onObserved w P Q ty g) P).1 =
      updateComp (offObserved (onObserved w P Q ty g) P Q ty g) P
        (fun _ => disposedComp) := by
    show (dispose (0 + 1) (onObserved w P Q ty g) P).1 = _
    rw [dispose_succ]
    simp only [hw1P, htrigP, hTP, Option.some_bind, hpch, List.reverse_nil,
      List.foldl_nil, updateComp_updateComp]
    rfl
  have e3 : (qc.listeners ++
        [Listener.mk ty g HKind.user,
         Listener.mk "dispose" g (HKind.cleanRemover P)]).filter
      (fun l => l.ty == "dispose")
      = qc.listeners.filter (fun l => l.ty == "dispose") ++
        [Listener.mk "dispose" g (HKind.cleanRemover P)] := by
    rw [List.filter_append]
    simp [hty]
  have htrigQ : trigger (onObserved w P Q ty g) Q "dispose" =
      removeListenersByGuid (onObserved w P Q ty g) P "dispose" g := by
    simp only [trigger, hw1Q]
    rw [e3, List.foldl_append,
      foldl_runHandler_user _ _ (fun l hl => (hql l (List.mem_of_mem_filter hl)).1)]
    simp [runHandler]
  have hUP : getComp (removeListenersByGuid (onObserved w P Q ty g) P "dispose" g) P
      = some pc := by
    simp only [removeListenersByGuid]
    rw [getComp_updateComp_self, hw1P]
    dsimp only [Option.map_some']
    rw [e1]
  have hUQ : getComp (removeListenersByGuid (onObserved w P Q ty g) P "dispose" g) Q
      = some { qc with listeners := qc.listeners ++
        [⟨ty, g, HKind.user⟩, ⟨"dispose", g, HKind.cleanRemover P⟩] } := by
    simp only [removeListenersByGuid]
    rw [getComp_updateComp_ne _ _ _ _ (Ne.symm hPQ), hw1Q]
  have hdispQ : (dispose 1 (onObserved w P Q ty g) Q).1 =
      updateComp (removeListenersByGuid (onObserved w P Q ty g) P "dispose" g) Q
        (fun _ => disposedComp) := by
    show (dispose (0 + 1) (onObserved w P Q ty g) Q).1 = _
    rw [dispose_succ]
    simp only [hw1Q, htrigQ, hUQ, Option.some_bind, hqch, List.reverse_nil,
      List.foldl_nil, updateComp_updateComp]
    rfl
  have hBP : getComp (dispose 1 (onObserved w P Q ty g) Q).1 P = some pc := by
    rw [hdispQ, getComp_updateComp_ne _ _ _ _ hPQ, hUP]
  have hBQ : getComp (dispose 1 (onObserved w P Q ty g) Q).1 Q
      = some disposedComp := by
    rw [hdispQ, getComp_updateComp_self, hUQ]
    rfl
  have hlater := dispose_leaf 0 (dispose 1 (onObserved w P Q ty g) Q).1 P pc
    hBP hpch (fun l hl => (hpl l hl).1)
  refine ⟨hw1P, hw1Q, ?_, ?_, hBP, hBQ, ?_, ?_⟩
  · rw [hdispP, getComp_updateComp_ne _ _ _ _ (Ne.symm hPQ), hTQ]
  · rw [hdispP, getComp_updateComp_self, hTP]
    rfl
  · rw [show (1 : Nat) = 0 + 1 from rfl, hlater, getComp_updateComp_self, hBP]
    rfl
  · rw [show (1 : Nat) = 0 + 1 from rfl, hlater,
      getComp_updateComp_ne _ _ _ _ (Ne.symm hPQ), hBQ]

/-- Two live leaf components, ids 0 and 1. -/
def demoWorld2 : World := ⟨[(0, leafComp), (1, leafComp)], [], [], 0⟩

theorem observed_listener_bidirectional_cleanup_witness :
    getComp (onObserved demoWorld2 0 1 "click" (Guid.g 5)) 0 =
      some { leafComp with listeners := leafComp.listeners ++
        [⟨"dispose", Guid.g 5, HKind.removeOnDispose 0 1 "click"⟩] } ∧
    getComp (onObserved demoWorld2 0 1 "click" (Guid.g 5)) 1 =
      some { leafComp with listeners := leafComp.listeners ++
        [⟨"click", Guid.g 5, HKind.user⟩,
         ⟨"dispose", Guid.g 5, HKind.cleanRemover 0⟩] } ∧
    getComp (dispose 1 (onObserved demoWorld2 0 1 "click" (Guid.g 5)) 0).1 1
      = some leafComp ∧
    getComp (dispose 1 (onObserved demoWorld2 0 1 "click" (Guid.g 5)) 0).1 0
      = some disposedComp ∧
    getComp (dispose 1 (onObserved demoWorld2 0 1 "click" (Guid.g 5)) 1).1 0
      = some leafComp ∧
    getComp (dispose 1 (onObserved demoWorld2 0 1 "click" (Guid.g 5)) 1).1 1
      = some disposedComp ∧
    getComp (dispose 1
        (dispose 1 (onObserved demoWorld2 0 1 "click" (Guid.g 5)) 1).1 0).1 0
      = some disposedComp ∧
    getComp (dispose 1
        (dispose 1 (onObserved demoWorld2 0 1 "click" (Guid.g 5)) 1).1 0).1 1
      = some disposedComp :=
  observed_listener_bidirectional_cleanup demoWorld2 0 1 leafComp leafComp
    "click" (Guid.g 5) (by decide) rfl rfl rfl rfl (by simp [leafComp])
    (by simp [leafComp]) (by decide)

/-- Claim C3: setTimeout/setInterval wrappers create the platform timer and
register a cancellation hook, tagged with the id-derived token, on the
component's dispose event (first conjuncts); disposing the component before
the delay elapses runs the hook, so the timer is no longer pending and never
fires; clearTimeout/clearInterval cancel the platform timer and remove the
dispose hook, restoring the component's listener list exactly. -/
theorem scoped_timer_dispose_cancellation (w : World) (c : Nat) (k : Comp)
    (hk : getComp w c = some k) (hch : k.children_ = some [])
    (hls : ∀ l ∈ k.listeners, l.kind = HKind.user ∧
      l.guid ≠ Guid.timeoutG w.nextTimerId ∧ l.guid ≠ Guid.intervalG w.nextTimerId)
    (hpt : w.nextTimerId ∉ w.pendingTimeouts)
    (hpi : w.nextTimerId ∉ w.pendingIntervals) :
    ((setTimeoutOp w c).2 = w.nextTimerId ∧
     timerWillFire (setTimeoutOp w c).1 w.nextTimerId = true ∧
     getComp (setTimeoutOp w c).1 c = some { k with listeners :=
       k.listeners ++ [⟨"dispose", Guid.timeoutG w.nextTimerId,
         HKind.timeoutHook c w.nextTimerId⟩] } ∧
     timerWillFire (dispose 1 (setTimeoutOp w c).1 c).1 w.nextTimerId = false ∧
     timerWillFire (clearTimeoutOp (setTimeoutOp w c).1 c w.nextTimerId)
       w.nextTimerId = false ∧
     getComp (clearTimeoutOp (setTimeoutOp w c).1 c w.nextTimerId) c = some k) ∧
    ((setIntervalOp w c).2 = w.nextTimerId ∧
     intervalWillFire (setIntervalOp w c).1 w.nextTimerId = true ∧
     getComp (setIntervalOp w c).1 c = some { k with listeners :=
       k.listeners ++ [⟨"dispose", Guid.intervalG w.nextTimerId,
         HKind.intervalHook c w.nextTimerId⟩] } ∧
     intervalWillFire (dispose 1 (setIntervalOp w c).1 c).1 w.nextTimerId = false ∧
     intervalWillFire (clearIntervalOp (setIntervalOp w c).1 c w.nextTimerId)
       w.nextTimerId = false ∧
     getComp (clearIntervalOp (setIntervalOp w c).1 c w.nextTimerId) c = some k) := by
  have hk1 : lookupC w.comps c = some k := hk
  have eT : (k.listeners ++
        [Listener.mk "dispose" (Guid.timeoutG w.nextTimerId)
          (HKind.timeoutHook c w.nextTimerId)]).filter
      (fun l => !(l.ty == "dispose" && l.guid == Guid.timeoutG w.nextTimerId))
      = k.listeners := by
    rw [List.filter_append, filter_no_guid _ _ _ (fun l hl => (hls l hl).2.1)]
    simp
  have eI : (k.listeners ++
        [Listener.mk "dispose" (Guid.intervalG w.nextTimerId)
          (HKind.intervalHook c w.nextTimerId)]).filter
      (fun l => !(l.ty == "dispose" && l.guid == Guid.intervalG w.nextTimerId))
      = k.listeners := by
    rw [List.filter_append, filter_no_guid _ _ _ (fun l hl => (hls l hl).2.2)]
    simp
  have hw1T : getComp (setTimeoutOp w c).1 c =
      some { k with listeners := k.listeners ++
        [⟨"dispose", Guid.timeoutG w.nextTimerId,
          HKind.timeoutHook c w.nextTimerId⟩] } := by
    simp only [setTimeoutOp, addListener]
    rw [getComp_updateComp_self, getComp_setPending, hk]
    rfl
  have hw1I : getComp (setIntervalOp w c).1 c =
      some { k with listeners := k.listeners ++
        [⟨"dispose", Guid.intervalG w.nextTimerId,
          HKind.intervalHook c w.nextTimerId⟩] } := by
    simp only [setIntervalOp, addListener]
    rw [getComp_updateComp_self, getComp_setPending, hk]
    rfl
  have htrigT : trigger (setTimeoutOp w c).1 c "dispose" =
      clearTimeoutOp (setTimeoutOp w c).1 c w.nextTimerId := by
    simp only [trigger, hw1T]
    rw [List.filter_append, List.foldl_append,
      foldl_runHandler_user _ _ (fun l hl => (hls l (List.mem_of_mem_filter hl)).1)]
    simp [runHandler]
  have htrigI : trigger (setIntervalOp w c).1 c "dispose" =
      clearIntervalOp (setIntervalOp w c).1 c w.nextTimerId := by
    simp only [trigger, hw1I]
    rw [List.filter_append, List.foldl_append,
      foldl_runHandler_user _ _ (fun l hl => (hls l (List.mem_of_mem_filter hl)).1)]
    simp [runHandler]
  have hwT : getComp (clearTimeoutOp (setTimeoutOp w c).1 c w.nextTimerId) c
      = some k := by
    simp only [clearTimeoutOp, removeListenersByGuid]
    rw [getComp_updateComp_self, getComp_setPending, hw1T]
    dsimp only [Option.map_some']
    rw [eT]
  have hwI : getComp (clearIntervalOp (setIntervalOp w c).1 c w.nextTimerId) c
      = some k := by
    simp only [clearIntervalOp, removeListenersByGuid]
    rw [getComp_updateComp_self, getComp_setPending, hw1I]
    dsimp only [Option.map_some']
    rw [eI]
  have hpendT : (clearTimeoutOp (setTimeoutOp w c).1 c w.nextTimerId).pendingTimeouts
      = w.pendingTimeouts := by
    show (w.pendingTimeouts ++ [w.nextTimerId]).erase w.nextTimerId = _
    rw [List.erase_append_right _ hpt]
    simp
  have hpendI : (clearIntervalOp (setIntervalOp w c).1 c w.nextTimerId).pendingIntervals
      = w.pendingIntervals := by
    show (w.pendingIntervals ++ [w.nextTimerId]).erase w.nextTimerId = _
    rw [List.erase_append_right _ hpi]
    simp
  have hdispT : (dispose 1 (setTimeoutOp w c).1 c).1 =
      updateComp (clearTimeoutOp (setTimeoutOp w c).1 c w.nextTimerId) c
        (fun _ => disposedComp) := by
    show (dispose (0 + 1) (setTimeoutOp w c).1 c).1 = _
    rw [dispose_succ]
    simp only [hw1T, htrigT, hwT, Option.some_bind, hch, List.reverse_nil,
      List.foldl_nil, updateComp_updateComp]
    rfl
  have hdispI : (dispose 1 (setIntervalOp w c).1 c).1 =
      updateComp (clearIntervalOp (setIntervalOp w c).1 c w.nextTimerId) c
        (fun _ => disposedComp) := by
    show (dispose (0 + 1) (setIntervalOp w c).1 c).1 = _
    rw [dispose_succ]
    simp only [hw1I, htrigI, hwI, Option.some_bind, hch, List.reverse_nil,
      List.foldl_nil, updateComp_updateComp]
    rfl
  refine ⟨⟨rfl, ?_, hw1T, ?_, ?_, hwT⟩, rfl, ?_, hw1I, ?_, ?_, hwI⟩
  · simp [timerWillFire, setTimeoutOp, addListener, updateComp]
  · rw [hdispT]
    simp only [timerWillFire, pendingTimeouts_updateComp, hpendT]
    simp [hpt]
  · simp only [timerWillFire, hpendT]
    simp [hpt]
  · simp [intervalWillFire, setIntervalOp, addListener, updateComp]
  · rw [hdispI]
    simp only [intervalWillFire, pendingIntervals_updateComp, hpendI]
    simp [hpi]
  · simp only [intervalWillFire, hpendI]
    simp [hpi]

theorem scoped_timer_dispose_cancellation_witness :
    ((setTimeoutOp demoWorld2 0).2 = 0 ∧
     timerWillFire (setTimeoutOp demoWorld2 0).1 0 = true ∧
     getComp (setTimeoutOp demoWorld2 0).1 0 = some { leafComp with listeners :=
       leafComp.listeners ++
         [⟨"dispose", Guid.timeoutG 0, HKind.timeoutHook 0 0⟩] } ∧
     timerWillFire (dispose 1 (setTimeoutOp demoWorld2 0).1 0).1 0 = false ∧
     timerWillFire (clearTimeoutOp (setTimeoutOp demoWorld2 0).1 0 0) 0 = false ∧
     getComp (clearTimeoutOp (setTimeoutOp demoWorld2 0).1 0 0) 0
       = some leafComp) ∧
    ((setIntervalOp demoWorld2 0).2 = 0 ∧
     intervalWillFire (setIntervalOp demoWorld2 0).1 0 = true ∧
     getComp (setIntervalOp demoWorld2 0).1 0 = some { leafComp with listeners :=
       leafComp.listeners ++
         [⟨"dispose", Guid.intervalG 0, HKind.intervalHook 0 0⟩] } ∧
     intervalWillFire (dispose 1 (setIntervalOp demoWorld2 0).1 0).1 0 = false ∧
     intervalWillFire (clearIntervalOp (setIntervalOp demoWorld2 0).1 0 0) 0
       = false ∧
     getComp (clearIntervalOp (setIntervalOp demoWorld2 0).1 0 0) 0
       = some leafComp) :=
  scoped_timer_dispose_cancellation demoWorld2 0 leafComp rfl rfl
    (by simp [leafComp]) (by decide) (by decide)

end Ev
